import Mathlib

/-!
Verification development for the google_extractor pipeline
(scripts/google_extractor: main.py, google_cse.py, config.py).

The search provider, the text extractor and the file system are external
collaborators; they are modelled as oracles (functions supplied as
parameters).  Everything else is a direct shallow embedding of the Python
source: `process_search_results` embeds google_cse.process_search_results,
`process_single_query` embeds main._process_single_query and
`run_batch_loop` embeds the batch loop of main.run_process.  Ghost fields
(`fetched_pages`, `sleep_count`, `raw_flushes`, `ext_flushes`) record the
observable effects (API calls, time.sleep invocations, batch-file flushes)
without changing the data flow.
-/

/-- An entry of `results_json['items']` as the CSE API returns it: every
field may be missing (`item.get(...)` in the source). -/
structure RawItem where
  title : Option String
  link : Option String
  snippet : Option String
deriving Repr, DecidableEq

/-- A normalized search result as built by google_cse.process_search_results:
all three fields present, defaults applied. -/
structure SearchResultItem where
  title : String
  link : String
  snippet : String
deriving Repr, DecidableEq

/-- The link-validity test of google_cse.process_search_results line 78:
`link.startswith(('http://', 'https://'))`, stated on the character
sequences of the strings. -/
def is_valid_http_link (l : String) : Bool :=
  "http://".data.isPrefixOf l.data || "https://".data.isPrefixOf l.data

/-- Embedding of google_cse.process_search_results.  The argument models
`results_json`: `none` is Python `None` (or a falsy dict), `some none` a
dict without an `'items'` key, `some (some items)` a dict whose `'items'`
field holds `items`.  The inner loop keeps an item iff its link is present,
truthy and passes the prefix test, applying the `'N/A'` defaults. -/
def normalize_items : List RawItem → List SearchResultItem
  | [] => []
  | item :: rest =>
    match item.link with
    | some link =>
      if !link.isEmpty && is_valid_http_link link then
        { title := item.title.getD "N/A", link := link,
          snippet := item.snippet.getD "N/A" } :: normalize_items rest
      else
        normalize_items rest
    | none => normalize_items rest

/-- Embedding of google_cse.process_search_results (outer shape checks plus
the filtering loop `normalize_items`). -/
def process_search_results : Option (Option (List RawItem)) → List SearchResultItem
  | none => []
  | some none => []
  | some (some items) => normalize_items items

/-- Outcome of one call to google_cse.search_google_cse as observed by the
caller in main.py: a re-raised requests.RequestException (`netError`), a
`None` return (timeout / API-level error / JSON decode failure:
`apiFailure`), or a returned `results_json` (`success`). -/
inductive SearchOutcome where
  | netError : SearchOutcome
  | apiFailure : SearchOutcome
  | success : Option (List RawItem) → SearchOutcome
deriving Repr, DecidableEq

/-- The per-query counter dictionary of main._process_single_query line 92. -/
structure Counters where
  raw_saved : Nat
  urls_processed : Nat
  extractions_success : Nat
deriving Repr, DecidableEq

/-- The all-zero initial counters. -/
def Counters.zero : Counters := ⟨0, 0, 0⟩

/-- Componentwise addition, embedding the aggregation loop of
main.run_process lines 250-251. -/
def Counters.add (a b : Counters) : Counters :=
  ⟨a.raw_saved + b.raw_saved, a.urls_processed + b.urls_processed,
   a.extractions_success + b.extractions_success⟩

/-- A raw search record as appended in main._process_single_query
lines 134-137: the normalized item plus query, search_page (1-based page
number) and approx_rank. -/
structure RawRecord where
  title : String
  link : String
  snippet : String
  query : String
  search_page : Nat
  approx_rank : Nat
deriving Repr, DecidableEq

/-- An extracted-text record as built in main._process_single_query
lines 155-159. -/
structure ExtractedRecord where
  query : String
  search_page : Nat
  approx_rank : Nat
  url : String
  title : String
  extracted_text : Option String
deriving Repr, DecidableEq

/-- State accumulated while processing one query, mirroring the local
variables of main._process_single_query.  `fetched_pages` is a ghost trace
of the 0-based page indices on which search_google_cse was invoked. -/
structure QueryState where
  counters : Counters
  raw_results : List RawRecord
  extracted_results : List ExtractedRecord
  fetched_pages : List Nat
deriving Repr, DecidableEq

/-- The empty initial state of main._process_single_query lines 92-94. -/
def QueryState.init : QueryState := ⟨Counters.zero, [], [], []⟩

/-- Embedding of the inner result loop of main._process_single_query
lines 130-160: for each normalized item (running index `idx`, Python's
`result_index`) append one RawRecord and one ExtractedRecord and update the
counters.  `extractor` is the TextExtractor oracle
(extract_main_text_requests): url to optional extracted text. -/
def process_items (query : String) (page start_index : Nat)
    (extractor : String → Option String) :
    List SearchResultItem → Nat → QueryState → QueryState
  | [], _, st => st
  | item :: rest, idx, st =>
    let current_rank := start_index + idx
    let raw_rec : RawRecord :=
      ⟨item.title, item.link, item.snippet, query, page + 1, current_rank⟩
    let c1 : Counters :=
      { st.counters with raw_saved := st.counters.raw_saved + 1 }
    let target_url := item.link
    let step : Counters × Option String :=
      if target_url.isEmpty then (c1, none)
      else
        let c2 : Counters := { c1 with urls_processed := c1.urls_processed + 1 }
        let ec := extractor target_url
        match ec with
        | some t =>
          ({ c2 with extractions_success := c2.extractions_success + 1 }, some t)
        | none => (c2, none)
    let ext_rec : ExtractedRecord :=
      ⟨query, page + 1, current_rank, target_url, item.title, step.2⟩
    process_items query page start_index extractor rest (idx + 1)
      { counters := step.1,
        raw_results := st.raw_results ++ [raw_rec],
        extracted_results := st.extracted_results ++ [ext_rec],
        fetched_pages := st.fetched_pages }

/-- Embedding of the page loop of main._process_single_query lines 99-168.
`page` is the current 0-based page index, `fuel` the number of remaining
iterations of `range(args.pages)`, `stop` the `stop_fetching_pages` flag.
`provider` is the SearchClient oracle: page index to outcome of
search_google_cse. -/
def process_pages (query : String) (num_results : Nat)
    (provider : Nat → SearchOutcome) (extractor : String → Option String) :
    Nat → Nat → Bool → QueryState → QueryState
  | _, 0, _, st => st
  | page, fuel + 1, stop, st =>
    if stop then st
    else
      let start_index := page * num_results + 1
      let st1 : QueryState := { st with fetched_pages := st.fetched_pages ++ [page] }
      match provider page with
      | SearchOutcome.netError =>
        process_pages query num_results provider extractor (page + 1) fuel true st1
      | SearchOutcome.apiFailure =>
        process_pages query num_results provider extractor (page + 1) fuel true st1
      | SearchOutcome.success results =>
        let search_results_list := process_search_results (some results)
        match search_results_list with
        | [] =>
          process_pages query num_results provider extractor (page + 1) fuel true st1
        | i :: rest =>
          let st2 := process_items query page start_index extractor (i :: rest) 0 st1
          let stop2 := decide ((i :: rest).length < num_results)
          process_pages query num_results provider extractor (page + 1) fuel stop2 st2

/-- Embedding of main._process_single_query: run the page loop from page 0
with `pages` iterations available, starting from the empty state. -/
def process_single_query (query : String) (pages num_results : Nat)
    (provider : Nat → SearchOutcome) (extractor : String → Option String) :
    QueryState :=
  process_pages query num_results provider extractor 0 pages false QueryState.init

/-- The raw records one page contributes (specification-side closed form of
the appends performed by `process_items`, used to reason about the list). -/
def page_raw_records (query : String) (page start_index : Nat) :
    List SearchResultItem → Nat → List RawRecord
  | [], _ => []
  | item :: rest, idx =>
    ⟨item.title, item.link, item.snippet, query, page + 1, start_index + idx⟩ ::
      page_raw_records query page start_index rest (idx + 1)

/-- The filtering predicate of google_cse.process_search_results, isolated:
an item is kept iff its link is present, truthy and passes the prefix test. -/
def keep_item (it : RawItem) : Bool :=
  match it.link with
  | some l => !l.isEmpty && is_valid_http_link l
  | none => false

/-- The per-item normalization of google_cse.process_search_results,
isolated: apply the `'N/A'` defaults. -/
def to_search_item (it : RawItem) : SearchResultItem :=
  ⟨it.title.getD "N/A", it.link.getD "", it.snippet.getD "N/A"⟩

/-- config.py line 21: DEFAULT_CSE_NUM_RESULTS. -/
def DEFAULT_CSE_NUM_RESULTS : Nat := 10

/-- config.py line 32: the value assigned to DEFAULT_EXTRACTED_OUTPUT_BASE
in the source, copied verbatim. -/
def DEFAULT_EXTRACTED_OUTPUT_BASE : String := "results/raw_search"

/-- config.py line 33: the value assigned to DEFAULT_SEARCH_OUTPUT_BASE in
the source, copied verbatim. -/
def DEFAULT_SEARCH_OUTPUT_BASE : String := "results/extracted_text"

/-- main.py line 52: the argparse default of --search-output-base is
config.DEFAULT_SEARCH_OUTPUT_BASE. -/
def default_search_output_base : String := DEFAULT_SEARCH_OUTPUT_BASE

/-- main.py line 53: the argparse default of --extracted-output-base is
config.DEFAULT_EXTRACTED_OUTPUT_BASE. -/
def default_extracted_output_base : String := DEFAULT_EXTRACTED_OUTPUT_BASE

/-- The state threaded through the per-query loop of main.run_process
(lines 238-256): the aggregate counters, the global query index and — as a
ghost observation — the number of time.sleep invocations so far. -/
structure QueryLoopState where
  total_counters : Counters
  global_query_index : Nat
  sleep_count : Nat
deriving Repr, DecidableEq

/-- The state of the whole batch loop of main.run_process: the query-loop
state plus the actual_lines_written tallies and, as ghost traces, the flush
outcome of every batch so far for each destination (`none` = the open/write
raised IOError and was logged, `some c` = the file was written with `c`
record lines). -/
structure OrchestratorState where
  qstate : QueryLoopState
  lines_raw : Nat
  lines_extracted : Nat
  raw_flushes : List (Option Nat)
  ext_flushes : List (Option Nat)
deriving Repr, DecidableEq

/-- The initial orchestrator state (main.run_process lines 214-216). -/
def OrchestratorState.init : OrchestratorState :=
  ⟨⟨Counters.zero, 0, 0⟩, 0, 0, [], []⟩

/-- Embedding of main.batch_generator (lines 68-71): successive slices of
`batch_size` elements.  `fuel` bounds the recursion; `batch_generator`
below supplies `data.length`, which suffices whenever `batch_size ≥ 1`
(argparse clamps it so before the run). -/
def batch_generator_fuel {α : Type} (batch_size : Nat) :
    Nat → List α → List (List α)
  | 0, _ => []
  | _ + 1, [] => []
  | fuel + 1, a :: rest =>
    (a :: rest).take batch_size ::
      batch_generator_fuel batch_size fuel ((a :: rest).drop batch_size)

/-- Embedding of main.batch_generator applied to the whole query list. -/
def batch_generator {α : Type} (data : List α) (batch_size : Nat) :
    List (List α) :=
  batch_generator_fuel batch_size data.length data

/-- Embedding of the inner query loop of main.run_process lines 238-256:
sleep (counted, never performed before the first query of the whole run and
only when the configured delay is positive), process the query, aggregate
counters, extend the batch record lists, bump the global index.
`provider` gives each query its SearchClient oracle. -/
def process_batch_queries (pages num_results : Nat) (delay : ℚ)
    (provider : String → Nat → SearchOutcome)
    (extractor : String → Option String) :
    List String → QueryLoopState × List RawRecord × List ExtractedRecord →
    QueryLoopState × List RawRecord × List ExtractedRecord
  | [], acc => acc
  | q :: rest, (st, braws, bexts) =>
    let st1 : QueryLoopState :=
      if 0 < st.global_query_index ∧ 0 < delay then
        { st with sleep_count := st.sleep_count + 1 }
      else st
    let qres := process_single_query q pages num_results (provider q) extractor
    let st2 : QueryLoopState :=
      { st1 with
        total_counters := st1.total_counters.add qres.counters,
        global_query_index := st1.global_query_index + 1 }
    process_batch_queries pages num_results delay provider extractor rest
      (st2, braws ++ qres.raw_results, bexts ++ qres.extracted_results)

/-- Result of the batch loop: `completed` means every batch ran and was
flushed; `fatal` means an exception escaped the loop body and was caught by
the top-level handler of main.run_process line 292, ending the run early.
In this code base the only such exception source modelled is the
ZeroDivisionError of the batch-summary log (main.py line 290) when a batch
collected zero records. -/
inductive BatchLoopResult where
  | completed : OrchestratorState → BatchLoopResult
  | fatal : OrchestratorState → BatchLoopResult
deriving Repr, DecidableEq

/-- The orchestrator state carried by either outcome. -/
def BatchLoopResult.state : BatchLoopResult → OrchestratorState
  | completed st => st
  | fatal st => st

/-- Whether the batch loop ran every batch to completion. -/
def BatchLoopResult.isCompleted : BatchLoopResult → Bool
  | completed _ => true
  | fatal _ => false

/-- One batch-file flush (main.run_process lines 269-277 resp. 280-288):
if opening/writing the file raises IOError the flush yields `none` and is
merely logged; otherwise each of the `n` records is written iff its
save_jsonl_record call succeeds (`writeOk`), and the count of successful
lines is returned. -/
def flush_batch (openOk : Bool) (writeOk : Nat → Bool) (n : Nat) : Option Nat :=
  if openOk then some ((List.range n).countP writeOk) else none

/-- Embedding of the batch loop of main.run_process lines 229-290.
`rawOpenOk`/`extOpenOk` say per batch index whether the raw resp. extracted
batch file opens and closes without IOError; `rawWriteOk`/`extWriteOk` say
per batch index and record position whether save_jsonl_record succeeds.
After both independent flushes the batch-summary log of line 290 divides
the saved counts by the record-list lengths; when a batch collected zero
records this raises ZeroDivisionError, which propagates to the top-level
handler: the loop ends with `fatal` and the remaining batches never run. -/
def run_batch_loop (pages num_results : Nat) (delay : ℚ)
    (provider : String → Nat → SearchOutcome)
    (extractor : String → Option String)
    (rawOpenOk extOpenOk : Nat → Bool)
    (rawWriteOk extWriteOk : Nat → Nat → Bool) :
    List (List String) → Nat → OrchestratorState → BatchLoopResult
  | [], _, st => BatchLoopResult.completed st
  | batch :: rest, bi, st =>
    let r := process_batch_queries pages num_results delay provider extractor
      batch (st.qstate, [], [])
    let braws := r.2.1
    let bexts := r.2.2
    let rawFlush := flush_batch (rawOpenOk bi) (rawWriteOk bi) braws.length
    let extFlush := flush_batch (extOpenOk bi) (extWriteOk bi) bexts.length
    let st3 : OrchestratorState :=
      { qstate := r.1,
        lines_raw := st.lines_raw + rawFlush.getD 0,
        lines_extracted := st.lines_extracted + extFlush.getD 0,
        raw_flushes := st.raw_flushes ++ [rawFlush],
        ext_flushes := st.ext_flushes ++ [extFlush] }
    if braws.length = 0 ∨ bexts.length = 0 then BatchLoopResult.fatal st3
    else
      run_batch_loop pages num_results delay provider extractor rawOpenOk
        extOpenOk rawWriteOk extWriteOk rest (bi + 1) st3

/-- Embedding of main.run_process after configuration and directory setup:
partition the queries into batches and run the batch loop from the initial
state. -/
def run_process (queries : List String) (pages num_results batch_size : Nat)
    (delay : ℚ) (provider : String → Nat → SearchOutcome)
    (extractor : String → Option String)
    (rawOpenOk extOpenOk : Nat → Bool)
    (rawWriteOk extWriteOk : Nat → Nat → Bool) : BatchLoopResult :=
  run_batch_loop pages num_results delay provider extractor rawOpenOk
    extOpenOk rawWriteOk extWriteOk (batch_generator queries batch_size) 0
    OrchestratorState.init

/-- A well-formed search item used by concrete witnesses. -/
def witness_item : RawItem := ⟨some "A", some "http://a.example", some "s"⟩

/-- Witness provider for the pagination-stop scenario: two normalized items
on pages 0..2, one item on page 3, network errors afterwards. -/
def witness_provider_short_page : Nat → SearchOutcome := fun p =>
  if p ≤ 2 then SearchOutcome.success (some [witness_item, witness_item])
  else if p = 3 then SearchOutcome.success (some [witness_item])
  else SearchOutcome.netError

/-- Witness provider that always yields one valid item. -/
def witness_provider_one_item : Nat → SearchOutcome := fun _ =>
  SearchOutcome.success (some [witness_item])

/-- Witness provider that always fails with a network error. -/
def witness_provider_net_error : Nat → SearchOutcome := fun _ =>
  SearchOutcome.netError

/-- Witness extractor that never finds text. -/
def witness_extractor_none : String → Option String := fun _ => none

/-- The two items of the spec's end-to-end normalization example. -/
def witness_items_c8 : List RawItem :=
  [⟨some "A", some "https://a.example", some "s1"⟩,
   ⟨some "B", some "ftp://bad", some "s2"⟩]

/-- Provider of the end-to-end example: the two-item response on every
page (only page 0 is reachable with maxPages = 1). -/
def witness_provider_c8 : Nat → SearchOutcome := fun _ =>
  SearchOutcome.success (some witness_items_c8)

/-- Per-query provider that always yields one valid item, for run-level
witnesses. -/
def witness_provider_per_query : String → Nat → SearchOutcome := fun _ _ =>
  SearchOutcome.success (some [witness_item])

/-- Per-query provider that always fails with a network error, for the
zero-record-batch failing input. -/
def witness_provider_net_all : String → Nat → SearchOutcome := fun _ _ =>
  SearchOutcome.netError

/-- Invariant of the per-query counters: successes never exceed processed
URLs, processed URLs never exceed saved raw records, and the raw_saved
counter equals the raw list length. -/
def counters_inv (st : QueryState) : Prop :=
  st.counters.extractions_success ≤ st.counters.urls_processed ∧
  st.counters.urls_processed ≤ st.counters.raw_saved ∧
  st.counters.raw_saved = st.raw_results.length

/-- Per-record shape of the two record lists: equal lengths, and every
extracted record carries exactly the extractor's verdict for its url (and
null when the url is absent, i.e. empty). -/
def records_inv (extractor : String → Option String) (st : QueryState) : Prop :=
  st.raw_results.length = st.extracted_results.length ∧
  ∀ e ∈ st.extracted_results,
    e.extracted_text = if e.url.isEmpty then none else extractor e.url

/-- The rank discipline claimed for a query's raw record sequence: ranks
strictly increase, the first rank is 1, and every rank is
(page index) * (page size) + (position within its page) + 1, the position
within the page being the number of earlier records of the same page. -/
def rank_props (num_results : Nat) (raws : List RawRecord) : Prop :=
  List.Chain' (fun a b => a.approx_rank < b.approx_rank) raws ∧
  (∀ r, raws.head? = some r → r.approx_rank = 1) ∧
  ∀ j r, raws[j]? = some r →
    r.approx_rank = (r.search_page - 1) * num_results +
      (raws.take j).countP (fun t => t.search_page == r.search_page) + 1

/-- Auxiliary page-loop invariant for the rank discipline: entering page
`page`, every collected rank is at most page * num_results, every collected
record came from an earlier page, and records exist only if page 0 already
produced some. -/
def rank_aux (num_results page : Nat) (raws : List RawRecord) : Prop :=
  (∀ r ∈ raws, r.approx_rank ≤ page * num_results) ∧
  (∀ r ∈ raws, r.search_page ≤ page) ∧
  (raws = [] → page = 0)

/-- Invariant of the inter-query sleep accounting: the number of sleeps is
one less than the number of queries processed, and zero before the first. -/
def sleep_inv (st : QueryLoopState) : Prop :=
  st.sleep_count = st.global_query_index - 1 ∧
  (st.global_query_index = 0 → st.sleep_count = 0)

set_option maxRecDepth 8000

theorem process_pages_stop (query : String) (num_results : Nat)
    (provider : Nat → SearchOutcome) (extractor : String → Option String) :
    ∀ (fuel page : Nat) (st : QueryState),
      process_pages query num_results provider extractor page fuel true st = st
  | 0, _, _ => rfl
  | _ + 1, _, _ => by simp [process_pages]

theorem process_items_fetched (query : String) (page s : Nat)
    (e : String → Option String) :
    ∀ (items : List SearchResultItem) (idx : Nat) (st : QueryState),
      (process_items query page s e items idx st).fetched_pages =
        st.fetched_pages
  | [], _, _ => rfl
  | item :: rest, idx, st => by
    rw [process_items]
    exact process_items_fetched query page s e rest (idx + 1) _

theorem process_items_raws (query : String) (page s : Nat)
    (e : String → Option String) :
    ∀ (items : List SearchResultItem) (idx : Nat) (st : QueryState),
      (process_items query page s e items idx st).raw_results =
        st.raw_results ++ page_raw_records query page s items idx := by
  intro items
  induction items with
  | nil => intro idx st; simp [process_items, page_raw_records]
  | cons item rest ih =>
    intro idx st
    rw [process_items, page_raw_records]
    rw [ih]
    simp

theorem process_items_exts_length (query : String) (page s : Nat)
    (e : String → Option String) :
    ∀ (items : List SearchResultItem) (idx : Nat) (st : QueryState),
      (process_items query page s e items idx st).extracted_results.length =
        st.extracted_results.length + items.length := by
  intro items
  induction items with
  | nil => intro idx st; simp [process_items]
  | cons item rest ih =>
    intro idx st
    rw [process_items]
    rw [ih]
    simp
    omega

theorem page_raw_records_length (query : String) (page s : Nat) :
    ∀ (items : List SearchResultItem) (idx : Nat),
      (page_raw_records query page s items idx).length = items.length := by
  intro items
  induction items with
  | nil => intro idx; rfl
  | cons item rest ih => intro idx; simp [page_raw_records, ih]

theorem process_items_counters_inv (query : String) (page s : Nat)
    (e : String → Option String) :
    ∀ (items : List SearchResultItem) (idx : Nat) (st : QueryState),
      counters_inv st →
      counters_inv (process_items query page s e items idx st) := by
  intro items
  induction items with
  | nil => intro idx st h; simpa [process_items] using h
  | cons item rest ih =>
    intro idx st h
    rw [process_items]
    apply ih
    obtain ⟨h1, h2, h3⟩ := h
    by_cases hl : item.link.isEmpty
    · refine ⟨?_, ?_, ?_⟩ <;> simp [counters_inv, hl] <;> omega
    · cases he : e item.link with
      | none => refine ⟨?_, ?_, ?_⟩ <;> simp [counters_inv, hl, he] <;> omega
      | some t => refine ⟨?_, ?_, ?_⟩ <;> simp [counters_inv, hl, he] <;> omega

theorem process_items_records_inv (query : String) (page s : Nat)
    (e : String → Option String) :
    ∀ (items : List SearchResultItem) (idx : Nat) (st : QueryState),
      records_inv e st →
      records_inv e (process_items query page s e items idx st) := by
  intro items
  induction items with
  | nil => intro idx st h; simpa [process_items] using h
  | cons item rest ih =>
    intro idx st h
    rw [process_items]
    apply ih
    obtain ⟨h1, h2⟩ := h
    constructor
    · simp [h1]
    · intro e' he'
      simp only [List.mem_append, List.mem_singleton] at he'
      rcases he' with he' | he'
      · exact h2 e' he'
      · subst he'
        by_cases hl : item.link.isEmpty
        · simp [hl]
        · cases hec : e item.link with
          | none => simp [hl, hec]
          | some t => simp [hl, hec]

theorem process_pages_preserve (query : String) (num_results : Nat)
    (provider : Nat → SearchOutcome) (extractor : String → Option String)
    (P : QueryState → Prop)
    (hfetch : ∀ (st : QueryState) (l : List Nat),
      P st → P { st with fetched_pages := l })
    (hitems : ∀ (page s : Nat) (items : List SearchResultItem) (idx : Nat)
      (st : QueryState), P st →
      P (process_items query page s extractor items idx st)) :
    ∀ (fuel page : Nat) (stop : Bool) (st : QueryState), P st →
      P (process_pages query num_results provider extractor page fuel stop st) := by
  intro fuel
  induction fuel with
  | zero => intro page stop st h; simpa [process_pages] using h
  | succ n ih =>
    intro page stop st h
    rw [process_pages]
    cases stop with
    | true => simpa using h
    | false =>
      simp only [Bool.false_eq_true, if_false]
      cases hp : provider page with
      | netError => exact ih _ _ _ (hfetch st _ h)
      | apiFailure => exact ih _ _ _ (hfetch st _ h)
      | success r =>
        cases hq : process_search_results (some r) with
        | nil =>
          simp only [hq]
          exact ih _ _ _ (hfetch st _ h)
        | cons i rest =>
          simp only [hq]
          exact ih _ _ _ (hitems _ _ _ _ _ (hfetch st _ h))

/-- Claim C2: for every query and every provider and extractor behaviour,
process_single_query returns as many extracted records as raw records, and
every extracted record carries the extractor's verdict for its url —
null when the url is absent (empty) and null when extraction fails. -/
theorem claim_c2_raw_extracted_parity (query : String) (pages num_results : Nat)
    (provider : Nat → SearchOutcome) (extractor : String → Option String) :
    (process_single_query query pages num_results provider extractor).raw_results.length =
      (process_single_query query pages num_results provider extractor).extracted_results.length ∧
    ∀ e ∈ (process_single_query query pages num_results provider extractor).extracted_results,
      e.extracted_text = if e.url.isEmpty then none else extractor e.url := by
  have h := process_pages_preserve query num_results provider extractor
    (records_inv extractor)
    (fun st l hst => hst)
    (fun page s items idx st hst =>
      process_items_records_inv query page s extractor items idx st hst)
    pages 0 false QueryState.init ⟨rfl, by intro e he; simp [QueryState.init] at he⟩
  exact h

/-- Claim C10: for every query, the returned counters satisfy
extractions_success ≤ urls_processed ≤ raw_saved, and raw_saved equals the
length of the returned raw-record list. -/
theorem claim_c10_counter_bounds (query : String) (pages num_results : Nat)
    (provider : Nat → SearchOutcome) (extractor : String → Option String) :
    (process_single_query query pages num_results provider extractor).counters.extractions_success ≤
      (process_single_query query pages num_results provider extractor).counters.urls_processed ∧
    (process_single_query query pages num_results provider extractor).counters.urls_processed ≤
      (process_single_query query pages num_results provider extractor).counters.raw_saved ∧
    (process_single_query query pages num_results provider extractor).counters.raw_saved =
      (process_single_query query pages num_results provider extractor).raw_results.length := by
  have h := process_pages_preserve query num_results provider extractor
    counters_inv
    (fun st l hst => hst)
    (fun page s items idx st hst =>
      process_items_counters_inv query page s extractor items idx st hst)
    pages 0 false QueryState.init ⟨Nat.le_refl 0, Nat.le_refl 0, rfl⟩
  exact h

/-- Claim C6: if the very first search call (page 0) fails with a
network-class error, process_single_query returns empty record lists and
all-zero counters (the embedding is total: the exception is consumed inside
the page loop and nothing propagates to the caller). -/
theorem claim_c6_net_error_page0 (query : String) (pages num_results : Nat)
    (provider : Nat → SearchOutcome) (extractor : String → Option String)
    (h : provider 0 = SearchOutcome.netError) :
    (process_single_query query pages num_results provider extractor).counters = Counters.zero ∧
    (process_single_query query pages num_results provider extractor).raw_results = [] ∧
    (process_single_query query pages num_results provider extractor).extracted_results = [] := by
  cases pages with
  | zero => exact ⟨rfl, rfl, rfl⟩
  | succ n =>
    unfold process_single_query
    rw [process_pages]
    simp only [Bool.false_eq_true, if_false, h]
    rw [process_pages_stop]
    exact ⟨rfl, rfl, rfl⟩

/-- Witness for claim C6 at a concrete input: the always-network-error
provider on three configured pages yields the empty result. -/
theorem claim_c6_witness :
    (process_single_query "q" 3 10 witness_provider_net_error witness_extractor_none).counters = Counters.zero ∧
    (process_single_query "q" 3 10 witness_provider_net_error witness_extractor_none).raw_results = [] ∧
    (process_single_query "q" 3 10 witness_provider_net_error witness_extractor_none).extracted_results = [] :=
  claim_c6_net_error_page0 "q" 3 10 witness_provider_net_error
    witness_extractor_none rfl

/-- Claim C5 (code bug): the default raw-search output base
(config.DEFAULT_SEARCH_OUTPUT_BASE, argparse default of
--search-output-base) is the string "results/extracted_text" and the
default extracted-text output base (config.DEFAULT_EXTRACTED_OUTPUT_BASE,
argparse default of --extracted-output-base) is "results/raw_search": the
two values are swapped relative to both the constants' names and the
claimed defaults. -/
theorem claim_c5_default_bases_swapped :
    default_search_output_base = "results/extracted_text" ∧
    default_extracted_output_base = "results/raw_search" ∧
    ¬ default_search_output_base = "results/raw_search" ∧
    ¬ default_extracted_output_base = "results/extracted_text" :=
  ⟨rfl, rfl, by decide, by decide⟩

/-- Claim C8: response normalization keeps exactly the items whose link is
present, non-empty and starts with http:// or https:// (the code's validity
test), in order, with the N/A defaults applied; every retained item's link
passes the validity test; and on the spec's end-to-end example (items A and
B with links https://a.example and ftp://bad, page size 10, one max page)
exactly one RawRecord and one ExtractedRecord, both for item A, are
produced. -/
theorem claim_c8_normalization :
    (∀ items : List RawItem,
      normalize_items items = (items.filter keep_item).map to_search_item) ∧
    (∀ (items : List RawItem) (s : SearchResultItem),
      s ∈ normalize_items items → is_valid_http_link s.link = true) ∧
    (process_single_query "test" 1 10 witness_provider_c8
        witness_extractor_none).raw_results =
      [⟨"A", "https://a.example", "s1", "test", 1, 1⟩] ∧
    (process_single_query "test" 1 10 witness_provider_c8
        witness_extractor_none).extracted_results =
      [⟨"test", 1, 1, "https://a.example", "A", none⟩] := by
  refine ⟨?_, ?_, by decide, by decide⟩
  · intro items
    induction items with
    | nil => rfl
    | cons item rest ih =>
      cases hl : item.link with
      | none => simp [normalize_items, List.filter, keep_item, hl, ih]
      | some l =>
        by_cases hv : (!l.isEmpty && is_valid_http_link l) = true
        · simp [normalize_items, List.filter, keep_item, hl, hv, ih,
            to_search_item]
        · simp [normalize_items, List.filter, keep_item, hl, hv, ih]
  · intro items
    induction items with
    | nil => intro s hs; simp [normalize_items] at hs
    | cons item rest ih =>
      intro s hs
      cases hl : item.link with
      | none =>
        simp only [normalize_items, hl] at hs
        exact ih s hs
      | some l =>
        simp only [normalize_items, hl] at hs
        by_cases hv : (!l.isEmpty && is_valid_http_link l) = true
        · rw [if_pos hv] at hs
          rcases List.mem_cons.mp hs with h | h
          · subst h
            simp only [Bool.and_eq_true] at hv
            simpa using hv.2
          · exact ih s h
        · rw [if_neg hv] at hs
          exact ih s hs

theorem process_pages_step_full (query : String) (k : Nat)
    (provider : Nat → SearchOutcome) (e : String → Option String)
    (page fuel : Nat) (st : QueryState) (r : Option (List RawItem))
    (hp : provider page = SearchOutcome.success r)
    (hlen : (process_search_results (some r)).length = k) (hk : 0 < k) :
    process_pages query k provider e page (fuel + 1) false st =
      process_pages query k provider e (page + 1) fuel false
        (process_items query page (page * k + 1) e
          (process_search_results (some r)) 0
          { st with fetched_pages := st.fetched_pages ++ [page] }) := by
  cases hq : process_search_results (some r) with
  | nil => rw [hq] at hlen; simp at hlen; omega
  | cons i rest =>
    rw [process_pages]
    simp only [Bool.false_eq_true, if_false, hp, hq]
    have hlt : ¬ (rest.length + 1 < k) := by
      rw [hq] at hlen; simp at hlen; omega
    simp [hlt]

theorem process_pages_step_short (query : String) (k : Nat)
    (provider : Nat → SearchOutcome) (e : String → Option String)
    (page fuel : Nat) (st : QueryState) (r : Option (List RawItem))
    (hp : provider page = SearchOutcome.success r)
    (hshort : (process_search_results (some r)).length < k) :
    process_pages query k provider e page (fuel + 1) false st =
      process_items query page (page * k + 1) e
        (process_search_results (some r)) 0
        { st with fetched_pages := st.fetched_pages ++ [page] } := by
  cases hq : process_search_results (some r) with
  | nil =>
    rw [process_pages]
    simp only [Bool.false_eq_true, if_false, hp, hq]
    rw [process_pages_stop]
    simp [process_items]
  | cons i rest =>
    rw [process_pages]
    simp only [Bool.false_eq_true, if_false, hp, hq]
    have hlt : rest.length + 1 < k := by
      rw [hq] at hshort; simpa using hshort
    simp [hlt]
    rw [process_pages_stop]

/-- Claim C1: with page size k, if the provider answers pages 0..2 with
exactly k normalized items and page 3 with k-1 normalized items, then for
every configured maxPages larger than 4 the query fetches exactly pages
0, 1, 2, 3 and no page after index 3. -/
theorem claim_c1_short_page_stops (k maxPages : Nat) (query : String)
    (provider : Nat → SearchOutcome) (extractor : String → Option String)
    (hk : 0 < k) (hmp : 4 < maxPages)
    (h02 : ∀ p, p ≤ 2 → ∃ r, provider p = SearchOutcome.success r ∧
      (process_search_results (some r)).length = k)
    (h3 : ∃ r, provider 3 = SearchOutcome.success r ∧
      (process_search_results (some r)).length = k - 1) :
    (process_single_query query maxPages k provider extractor).fetched_pages =
      [0, 1, 2, 3] := by
  obtain ⟨r0, hp0, hl0⟩ := h02 0 (by omega)
  obtain ⟨r1, hp1, hl1⟩ := h02 1 (by omega)
  obtain ⟨r2, hp2, hl2⟩ := h02 2 (by omega)
  obtain ⟨r3, hp3, hl3⟩ := h3
  obtain ⟨m, rfl⟩ : ∃ m, maxPages = (m + 4) + 1 := ⟨maxPages - 5, by omega⟩
  unfold process_single_query
  rw [process_pages_step_full query k provider extractor 0 (m + 4)
    QueryState.init r0 hp0 hl0 hk]
  rw [show m + 4 = (m + 3) + 1 by omega]
  rw [process_pages_step_full query k provider extractor 1 (m + 3) _ r1 hp1 hl1 hk]
  rw [show m + 3 = (m + 2) + 1 by omega]
  rw [process_pages_step_full query k provider extractor 2 (m + 2) _ r2 hp2 hl2 hk]
  rw [show m + 2 = (m + 1) + 1 by omega]
  rw [process_pages_step_short query k provider extractor 3 (m + 1) _ r3 hp3
    (by omega)]
  simp [process_items_fetched, QueryState.init]

/-- Witness for claim C1 at a concrete input: page size 2, six configured
pages, two items on pages 0..2 and one item on page 3; exactly pages
0, 1, 2, 3 are fetched. -/
theorem claim_c1_witness :
    (process_single_query "q" 6 2 witness_provider_short_page
        witness_extractor_none).fetched_pages = [0, 1, 2, 3] :=
  claim_c1_short_page_stops 2 6 "q" witness_provider_short_page
    witness_extractor_none (by decide) (by decide)
    (fun p hp => ⟨some [witness_item, witness_item],
      by simp [witness_provider_short_page, hp], by decide⟩)
    ⟨some [witness_item], by simp [witness_provider_short_page], by decide⟩

theorem page_raw_records_getElem (query : String) (page s : Nat) :
    ∀ (items : List SearchResultItem) (idx j : Nat) (r : RawRecord),
      (page_raw_records query page s items idx)[j]? = some r →
      r.approx_rank = s + idx + j ∧ r.search_page = page + 1 := by
  intro items
  induction items with
  | nil => intro idx j r hr; simp [page_raw_records] at hr
  | cons item rest ih =>
    intro idx j r hr
    cases j with
    | zero =>
      rw [page_raw_records, List.getElem?_cons_zero] at hr
      simp only [Option.some.injEq] at hr
      subst hr
      exact ⟨by simp, rfl⟩
    | succ j' =>
      rw [page_raw_records, List.getElem?_cons_succ] at hr
      obtain ⟨h1, h2⟩ := ih (idx + 1) j' r hr
      exact ⟨by omega, h2⟩

theorem page_raw_records_chain (query : String) (page s : Nat)
    (items : List SearchResultItem) (idx : Nat) :
    List.Chain' (fun a b => a.approx_rank < b.approx_rank)
      (page_raw_records query page s items idx) := by
  rw [List.chain'_iff_get]
  intro i h
  dsimp only
  have hi : i < (page_raw_records query page s items idx).length := by omega
  have hi1 : i + 1 < (page_raw_records query page s items idx).length := by omega
  have e1 : (page_raw_records query page s items idx)[i]? =
      some ((page_raw_records query page s items idx).get ⟨i, hi⟩) := by
    rw [List.get_eq_getElem]
    exact List.getElem?_eq_getElem hi
  have e2 : (page_raw_records query page s items idx)[i + 1]? =
      some ((page_raw_records query page s items idx).get ⟨i + 1, hi1⟩) := by
    rw [List.get_eq_getElem]
    exact List.getElem?_eq_getElem hi1
  have r1 := page_raw_records_getElem query page s items idx i _ e1
  have r2 := page_raw_records_getElem query page s items idx (i + 1) _ e2
  rw [r1.1, r2.1]
  omega

theorem page_raw_records_mem (query : String) (page s : Nat)
    (items : List SearchResultItem) (idx : Nat) (r : RawRecord)
    (hr : r ∈ page_raw_records query page s items idx) :
    r.search_page = page + 1 ∧ s + idx ≤ r.approx_rank ∧
      r.approx_rank < s + idx + items.length := by
  obtain ⟨j, hj⟩ := List.mem_iff_getElem?.mp hr
  obtain ⟨h1, h2⟩ := page_raw_records_getElem query page s items idx j r hj
  have hlt : j < items.length := by
    rcases Nat.lt_or_ge j (page_raw_records query page s items idx).length with h | h
    · rwa [page_raw_records_length] at h
    · rw [List.getElem?_eq_none h] at hj; cases hj
  exact ⟨h2, by omega, by omega⟩

theorem page_raw_records_head (query : String) (page s : Nat)
    (item : SearchResultItem) (rest : List SearchResultItem) (idx : Nat) :
    (page_raw_records query page s (item :: rest) idx).head? =
      some ⟨item.title, item.link, item.snippet, query, page + 1, s + idx⟩ := rfl

theorem process_pages_rank_props (query : String) (num_results : Nat)
    (provider : Nat → SearchOutcome) (extractor : String → Option String)
    (hlen : ∀ p r, provider p = SearchOutcome.success r →
      (process_search_results (some r)).length ≤ num_results) :
    ∀ (fuel page : Nat) (stop : Bool) (st : QueryState),
      rank_props num_results st.raw_results →
      (stop = false → rank_aux num_results page st.raw_results) →
      rank_props num_results
        (process_pages query num_results provider extractor page fuel stop st).raw_results := by
  intro fuel
  induction fuel with
  | zero => intro page stop st h _; simpa [process_pages] using h
  | succ n ih =>
    intro page stop st h haux
    rw [process_pages]
    cases stop with
    | true => simpa using h
    | false =>
      simp only [Bool.false_eq_true, if_false]
      replace haux := haux rfl
      cases hp : provider page with
      | netError => exact ih _ _ _ h (by simp)
      | apiFailure => exact ih _ _ _ h (by simp)
      | success r =>
        cases hq : process_search_results (some r) with
        | nil => simp only [hq]; exact ih _ _ _ h (by simp)
        | cons i rest =>
          simp only [hq]
          have hnum : rest.length + 1 ≤ num_results := by
            have hh := hlen page r hp
            rw [hq] at hh
            simpa using hh
          have hraws : (process_items query page (page * num_results + 1) extractor
              (i :: rest) 0
              { st with fetched_pages := st.fetched_pages ++ [page] }).raw_results =
              st.raw_results ++
                page_raw_records query page (page * num_results + 1) (i :: rest) 0 := by
            rw [process_items_raws]
          obtain ⟨hch, hhd, hfm⟩ := h
          obtain ⟨hbnd, hpg, hemp⟩ := haux
          apply ih
          · rw [hraws]
            refine ⟨?_, ?_, ?_⟩
            · apply List.Chain'.append hch
                (page_raw_records_chain query page (page * num_results + 1) (i :: rest) 0)
              intro x hx y hy
              obtain ⟨hne, hxl⟩ := List.mem_getLast?_eq_getLast hx
              have hxm : x ∈ st.raw_results := by rw [hxl]; exact List.getLast_mem hne
              have hx1 : x.approx_rank ≤ page * num_results := hbnd x hxm
              rw [page_raw_records_head] at hy
              simp only [Option.mem_def, Option.some.injEq] at hy
              subst hy
              simp only []
              omega
            · intro r0 hr0
              by_cases hnil : st.raw_results = []
              · rw [hnil, List.nil_append, page_raw_records_head] at hr0
                simp only [Option.some.injEq] at hr0
                subst hr0
                have hp0 : page = 0 := hemp hnil
                subst hp0
                simp
              · rw [List.head?_append_of_ne_nil _ hnil] at hr0
                exact hhd r0 hr0
            · intro j r0 hr0
              rcases Nat.lt_or_ge j st.raw_results.length with hj | hj
              · rw [List.getElem?_append, if_pos hj] at hr0
                rw [List.take_append_of_le_length (Nat.le_of_lt hj)]
                exact hfm j r0 hr0
              · rw [List.getElem?_append_right hj] at hr0
                obtain ⟨hrank, hpage'⟩ := page_raw_records_getElem query page
                  (page * num_results + 1) (i :: rest) 0
                  (j - st.raw_results.length) r0 hr0
                have hjlt : j - st.raw_results.length < rest.length + 1 := by
                  rcases Nat.lt_or_ge (j - st.raw_results.length)
                    (page_raw_records query page
                      (page * num_results + 1) (i :: rest) 0).length with hlt | hge
                  · rw [page_raw_records_length] at hlt
                    simpa using hlt
                  · rw [List.getElem?_eq_none hge] at hr0; cases hr0
                have htake : List.take j (st.raw_results ++
                    page_raw_records query page (page * num_results + 1) (i :: rest) 0) =
                    st.raw_results ++ List.take (j - st.raw_results.length)
                      (page_raw_records query page (page * num_results + 1) (i :: rest) 0) := by
                  conv_lhs =>
                    rw [show j = st.raw_results.length + (j - st.raw_results.length) by omega]
                  exact List.take_append _
                rw [htake, List.countP_append]
                have hc0 : st.raw_results.countP
                    (fun t => t.search_page == r0.search_page) = 0 := by
                  rw [List.countP_eq_zero]
                  intro a ha
                  have haa := hpg a ha
                  simp only [beq_iff_eq, hpage']
                  omega
                have hcT : (List.take (j - st.raw_results.length)
                    (page_raw_records query page (page * num_results + 1)
                      (i :: rest) 0)).countP
                    (fun t => t.search_page == r0.search_page) =
                    j - st.raw_results.length := by
                  have hall : ∀ a ∈ List.take (j - st.raw_results.length)
                      (page_raw_records query page (page * num_results + 1) (i :: rest) 0),
                      (fun t => t.search_page == r0.search_page) a = true := by
                    intro a ha
                    have ham := List.mem_of_mem_take ha
                    have hsp := (page_raw_records_mem query page
                      (page * num_results + 1) (i :: rest) 0 a ham).1
                    simp only [beq_iff_eq, hsp, hpage']
                  rw [List.countP_eq_length.mpr hall, List.length_take,
                    page_raw_records_length]
                  simp
                  omega
                rw [hc0, hcT, hrank, hpage']
                simp only [Nat.add_sub_cancel]
                omega
          · intro hstop2
            have hge : num_results ≤ rest.length + 1 := by
              have hd := of_decide_eq_false hstop2
              simp only [List.length_cons] at hd
              omega
            rw [hraws]
            refine ⟨?_, ?_, ?_⟩
            · intro x hx
              have hdistrib : (page + 1) * num_results =
                  page * num_results + num_results := by ring
              rcases List.mem_append.mp hx with hx | hx
              · have := hbnd x hx
                omega
              · obtain ⟨hsp, hlo, hhi⟩ := page_raw_records_mem query page
                  (page * num_results + 1) (i :: rest) 0 x hx
                simp only [List.length_cons] at hhi
                omega
            · intro x hx
              rcases List.mem_append.mp hx with hx | hx
              · have := hpg x hx; omega
              · have := (page_raw_records_mem query page
                  (page * num_results + 1) (i :: rest) 0 x hx).1
                omega
            · intro hcon
              obtain ⟨h1, h2⟩ := List.append_eq_nil.mp hcon
              rw [page_raw_records] at h2
              cases h2

/-- Claim C3: whenever every provider response normalizes to at most
num_results items (the provider honours the requested page size), the raw
record sequence of a query has strictly increasing approx_rank values, the
first record (when any exists) has approx_rank 1, and every record's
approx_rank equals page_index * page_size + position_within_page + 1 (the
position within the page being the number of earlier records of the same
page). -/
theorem claim_c3_rank_discipline (query : String) (pages num_results : Nat)
    (provider : Nat → SearchOutcome) (extractor : String → Option String)
    (hlen : ∀ p r, provider p = SearchOutcome.success r →
      (process_search_results (some r)).length ≤ num_results) :
    rank_props num_results
      (process_single_query query pages num_results provider extractor).raw_results := by
  apply process_pages_rank_props query num_results provider extractor hlen
  · refine ⟨List.chain'_nil, ?_, ?_⟩
    · intro r hr; cases hr
    · intro j r hr
      have : (QueryState.init.raw_results : List RawRecord) = [] := rfl
      rw [this] at hr
      simp at hr
  · intro _
    refine ⟨?_, ?_, fun _ => rfl⟩
    · intro r hr; cases hr
    · intro r hr; cases hr

/-- Witness for claim C3 at a concrete input: with a provider returning a
single valid item per page, the raw ranks of a two-page query are strictly
increasing. -/
theorem claim_c3_witness :
    List.Chain' (fun a b => a.approx_rank < b.approx_rank)
      (process_single_query "q" 2 10 witness_provider_one_item
        witness_extractor_none).raw_results :=
  (claim_c3_rank_discipline "q" 2 10 witness_provider_one_item
    witness_extractor_none
    (fun p r h => by
      simp only [witness_provider_one_item, SearchOutcome.success.injEq] at h
      subst h
      decide)).1

theorem batch_generator_fuel_flatten {α : Type} (batch_size : Nat)
    (hbs : 1 ≤ batch_size) :
    ∀ (fuel : Nat) (data : List α), data.length ≤ fuel →
      (batch_generator_fuel batch_size fuel data).flatten = data := by
  intro fuel
  induction fuel with
  | zero =>
    intro data hd
    have hnil : data = [] := List.length_eq_zero.mp (Nat.le_zero.mp hd)
    subst hnil
    rfl
  | succ n ih =>
    intro data hd
    cases data with
    | nil => rfl
    | cons a rest =>
      rw [batch_generator_fuel, List.flatten_cons, ih]
      · exact List.take_append_drop _ _
      · rw [List.length_drop]
        simp only [List.length_cons] at hd ⊢
        omega

theorem batch_generator_length_sum {α : Type} (data : List α) (batch_size : Nat)
    (hbs : 1 ≤ batch_size) :
    ((batch_generator data batch_size).map List.length).sum = data.length := by
  rw [← List.length_flatten]
  unfold batch_generator
  rw [batch_generator_fuel_flatten batch_size hbs data.length data (Nat.le_refl _)]

theorem process_batch_queries_qstate (pages num_results : Nat) (delay : ℚ)
    (provider : String → Nat → SearchOutcome) (extractor : String → Option String)
    (hdelay : 0 < delay) :
    ∀ (qs : List String) (st : QueryLoopState) (braws : List RawRecord)
      (bexts : List ExtractedRecord),
      (process_batch_queries pages num_results delay provider extractor qs
        (st, braws, bexts)).1.global_query_index =
        st.global_query_index + qs.length ∧
      (sleep_inv st → sleep_inv (process_batch_queries pages num_results delay
        provider extractor qs (st, braws, bexts)).1) := by
  intro qs
  induction qs with
  | nil =>
    intro st braws bexts
    exact ⟨by simp [process_batch_queries],
      fun h => by simpa [process_batch_queries] using h⟩
  | cons q rest ih =>
    intro st braws bexts
    by_cases hg : 0 < st.global_query_index
    · have hcond : (0 < st.global_query_index ∧ 0 < delay) := ⟨hg, hdelay⟩
      rw [process_batch_queries, if_pos hcond]
      dsimp only
      constructor
      · rw [(ih _ _ _).1]
        simp only [List.length_cons]
        omega
      · intro hs
        refine (ih _ _ _).2 ⟨?_, ?_⟩
        · simp only []
          obtain ⟨hs1, hs2⟩ := hs
          omega
        · intro hzero
          simp only [] at hzero
          omega
    · have hcond : ¬ (0 < st.global_query_index ∧ 0 < delay) := fun hc => hg hc.1
      have hg0 : st.global_query_index = 0 := by omega
      rw [process_batch_queries, if_neg hcond]
      constructor
      · rw [(ih _ _ _).1]
        simp only [List.length_cons]
        omega
      · intro hs
        refine (ih _ _ _).2 ⟨?_, ?_⟩
        · simp only []
          obtain ⟨hs1, hs2⟩ := hs
          have := hs2 hg0
          omega
        · intro hzero
          simp only [] at hzero
          omega

theorem run_batch_loop_completed (pages num_results : Nat) (delay : ℚ)
    (provider : String → Nat → SearchOutcome) (extractor : String → Option String)
    (rawOpenOk extOpenOk : Nat → Bool) (rawWriteOk extWriteOk : Nat → Nat → Bool)
    (hdelay : 0 < delay) :
    ∀ (batches : List (List String)) (bi : Nat) (st st' : OrchestratorState),
      run_batch_loop pages num_results delay provider extractor rawOpenOk extOpenOk
        rawWriteOk extWriteOk batches bi st = BatchLoopResult.completed st' →
      st'.qstate.global_query_index =
        st.qstate.global_query_index + (batches.map List.length).sum ∧
      (sleep_inv st.qstate → sleep_inv st'.qstate) := by
  intro batches
  induction batches with
  | nil =>
    intro bi st st' h
    rw [run_batch_loop] at h
    cases h
    exact ⟨by simp, fun hs => hs⟩
  | cons batch rest ih =>
    intro bi st st' h
    rw [run_batch_loop] at h
    split at h
    · cases h
    · obtain ⟨ih1, ih2⟩ := ih (bi + 1) _ st' h
      have hpbq := process_batch_queries_qstate pages num_results delay provider
        extractor hdelay batch st.qstate [] []
      constructor
      · rw [ih1]
        dsimp only
        rw [hpbq.1]
        simp only [List.map_cons, List.sum_cons]
        omega
      · intro hs
        exact ih2 (hpbq.2 hs)

theorem run_batch_loop_sleep_inv (pages num_results : Nat) (delay : ℚ)
    (provider : String → Nat → SearchOutcome) (extractor : String → Option String)
    (rawOpenOk extOpenOk : Nat → Bool) (rawWriteOk extWriteOk : Nat → Nat → Bool)
    (hdelay : 0 < delay) :
    ∀ (batches : List (List String)) (bi : Nat) (st : OrchestratorState),
      sleep_inv st.qstate →
      sleep_inv (run_batch_loop pages num_results delay provider extractor
        rawOpenOk extOpenOk rawWriteOk extWriteOk batches bi st).state.qstate := by
  intro batches
  induction batches with
  | nil =>
    intro bi st hs
    rw [run_batch_loop]
    exact hs
  | cons batch rest ih =>
    intro bi st hs
    rw [run_batch_loop]
    have hpbq := process_batch_queries_qstate pages num_results delay provider
      extractor hdelay batch st.qstate [] []
    split
    · exact hpbq.2 hs
    · exact ih (bi + 1) _ (hpbq.2 hs)

/-- Claim C9: with a positive configured delay, the inter-query suspension
is invoked exactly once before every processed query except the very first
query of the whole run (the sleep tally always equals the number of
processed queries minus one, with no reset at batch boundaries), and in a
run over N queries whose batch loop completes it is invoked exactly N - 1
times. -/
theorem claim_c9_sleep_count (queries : List String)
    (pages num_results batch_size : Nat) (delay : ℚ)
    (provider : String → Nat → SearchOutcome) (extractor : String → Option String)
    (rawOpenOk extOpenOk : Nat → Bool) (rawWriteOk extWriteOk : Nat → Nat → Bool)
    (hbs : 1 ≤ batch_size) (hdelay : 0 < delay) :
    ((run_process queries pages num_results batch_size delay provider extractor
        rawOpenOk extOpenOk rawWriteOk extWriteOk).state.qstate.sleep_count =
      (run_process queries pages num_results batch_size delay provider extractor
        rawOpenOk extOpenOk rawWriteOk extWriteOk).state.qstate.global_query_index
        - 1) ∧
    ((run_process queries pages num_results batch_size delay provider extractor
        rawOpenOk extOpenOk rawWriteOk extWriteOk).isCompleted = true →
      (run_process queries pages num_results batch_size delay provider extractor
        rawOpenOk extOpenOk rawWriteOk extWriteOk).state.qstate.sleep_count =
        queries.length - 1) := by
  have hinv := run_batch_loop_sleep_inv pages num_results delay provider extractor
    rawOpenOk extOpenOk rawWriteOk extWriteOk hdelay
    (batch_generator queries batch_size) 0 OrchestratorState.init
    ⟨rfl, fun _ => rfl⟩
  constructor
  · exact hinv.1
  · intro hdone
    cases hR : run_process queries pages num_results batch_size delay provider
        extractor rawOpenOk extOpenOk rawWriteOk extWriteOk with
    | fatal st' =>
      rw [hR] at hdone
      cases hdone
    | completed st' =>
      obtain ⟨h1, h2⟩ := run_batch_loop_completed pages num_results delay provider
        extractor rawOpenOk extOpenOk rawWriteOk extWriteOk hdelay
        (batch_generator queries batch_size) 0 OrchestratorState.init st' hR
      have hsum : ((batch_generator queries batch_size).map List.length).sum =
          queries.length := batch_generator_length_sum queries batch_size hbs
      have h3 := h2 ⟨rfl, fun _ => rfl⟩
      show st'.qstate.sleep_count = queries.length - 1
      rw [h3.1, h1, hsum]
      simp [OrchestratorState.init]

/-- Witness for claim C9 at a concrete input: three queries in batches of
two with delay 1 and a one-item provider; the run completes and sleeps
exactly twice. -/
theorem claim_c9_witness :
    (run_process ["a", "b", "c"] 1 10 2 1 witness_provider_per_query
      witness_extractor_none (fun _ => true) (fun _ => true)
      (fun _ _ => true) (fun _ _ => true)).state.qstate.sleep_count = 2 :=
  (claim_c9_sleep_count ["a", "b", "c"] 1 10 2 1 witness_provider_per_query
    witness_extractor_none (fun _ => true) (fun _ => true) (fun _ _ => true)
    (fun _ _ => true) (by decide) (by decide)).2 (by decide)

theorem run_batch_loop_raw_indep (pages num_results : Nat) (delay : ℚ)
    (provider : String → Nat → SearchOutcome) (extractor : String → Option String)
    (rawOpenOk1 rawOpenOk2 extOpenOk : Nat → Bool)
    (rawWriteOk1 rawWriteOk2 extWriteOk : Nat → Nat → Bool) :
    ∀ (batches : List (List String)) (bi : Nat) (st1 st2 : OrchestratorState),
      st1.qstate = st2.qstate → st1.lines_extracted = st2.lines_extracted →
      st1.ext_flushes = st2.ext_flushes →
      ((run_batch_loop pages num_results delay provider extractor rawOpenOk1
          extOpenOk rawWriteOk1 extWriteOk batches bi st1).state.qstate =
        (run_batch_loop pages num_results delay provider extractor rawOpenOk2
          extOpenOk rawWriteOk2 extWriteOk batches bi st2).state.qstate) ∧
      ((run_batch_loop pages num_results delay provider extractor rawOpenOk1
          extOpenOk rawWriteOk1 extWriteOk batches bi st1).state.lines_extracted =
        (run_batch_loop pages num_results delay provider extractor rawOpenOk2
          extOpenOk rawWriteOk2 extWriteOk batches bi st2).state.lines_extracted) ∧
      ((run_batch_loop pages num_results delay provider extractor rawOpenOk1
          extOpenOk rawWriteOk1 extWriteOk batches bi st1).state.ext_flushes =
        (run_batch_loop pages num_results delay provider extractor rawOpenOk2
          extOpenOk rawWriteOk2 extWriteOk batches bi st2).state.ext_flushes) ∧
      ((run_batch_loop pages num_results delay provider extractor rawOpenOk1
          extOpenOk rawWriteOk1 extWriteOk batches bi st1).isCompleted =
        (run_batch_loop pages num_results delay provider extractor rawOpenOk2
          extOpenOk rawWriteOk2 extWriteOk batches bi st2).isCompleted) := by
  intro batches
  induction batches with
  | nil =>
    intro bi st1 st2 hq hl he
    rw [run_batch_loop, run_batch_loop]
    exact ⟨hq, hl, he, rfl⟩
  | cons batch rest ih =>
    intro bi st1 st2 hq hl he
    rw [run_batch_loop, run_batch_loop, hq]
    by_cases hc : ((process_batch_queries pages num_results delay provider
        extractor batch (st2.qstate, [], [])).2.1.length = 0 ∨
      (process_batch_queries pages num_results delay provider extractor batch
        (st2.qstate, [], [])).2.2.length = 0)
    · simp only [if_pos hc]
      refine ⟨rfl, ?_, ?_, rfl⟩ <;>
        simp [BatchLoopResult.state, hl, he]
    · simp only [if_neg hc]
      exact ih (bi + 1) _ _ rfl (by simp [hl]) (by simp [he])

theorem run_batch_loop_ext_indep (pages num_results : Nat) (delay : ℚ)
    (provider : String → Nat → SearchOutcome) (extractor : String → Option String)
    (extOpenOk1 extOpenOk2 rawOpenOk : Nat → Bool)
    (extWriteOk1 extWriteOk2 rawWriteOk : Nat → Nat → Bool) :
    ∀ (batches : List (List String)) (bi : Nat) (st1 st2 : OrchestratorState),
      st1.qstate = st2.qstate → st1.lines_raw = st2.lines_raw →
      st1.raw_flushes = st2.raw_flushes →
      ((run_batch_loop pages num_results delay provider extractor rawOpenOk
          extOpenOk1 rawWriteOk extWriteOk1 batches bi st1).state.qstate =
        (run_batch_loop pages num_results delay provider extractor rawOpenOk
          extOpenOk2 rawWriteOk extWriteOk2 batches bi st2).state.qstate) ∧
      ((run_batch_loop pages num_results delay provider extractor rawOpenOk
          extOpenOk1 rawWriteOk extWriteOk1 batches bi st1).state.lines_raw =
        (run_batch_loop pages num_results delay provider extractor rawOpenOk
          extOpenOk2 rawWriteOk extWriteOk2 batches bi st2).state.lines_raw) ∧
      ((run_batch_loop pages num_results delay provider extractor rawOpenOk
          extOpenOk1 rawWriteOk extWriteOk1 batches bi st1).state.raw_flushes =
        (run_batch_loop pages num_results delay provider extractor rawOpenOk
          extOpenOk2 rawWriteOk extWriteOk2 batches bi st2).state.raw_flushes) ∧
      ((run_batch_loop pages num_results delay provider extractor rawOpenOk
          extOpenOk1 rawWriteOk extWriteOk1 batches bi st1).isCompleted =
        (run_batch_loop pages num_results delay provider extractor rawOpenOk
          extOpenOk2 rawWriteOk extWriteOk2 batches bi st2).isCompleted) := by
  intro batches
  induction batches with
  | nil =>
    intro bi st1 st2 hq hl hr
    rw [run_batch_loop, run_batch_loop]
    exact ⟨hq, hl, hr, rfl⟩
  | cons batch rest ih =>
    intro bi st1 st2 hq hl hr
    rw [run_batch_loop, run_batch_loop, hq]
    by_cases hc : ((process_batch_queries pages num_results delay provider
        extractor batch (st2.qstate, [], [])).2.1.length = 0 ∨
      (process_batch_queries pages num_results delay provider extractor batch
        (st2.qstate, [], [])).2.2.length = 0)
    · simp only [if_pos hc]
      refine ⟨rfl, ?_, ?_, rfl⟩ <;>
        simp [BatchLoopResult.state, hl, hr]
    · simp only [if_neg hc]
      exact ih (bi + 1) _ _ rfl (by simp [hl]) (by simp [hr])

/-- Claim C7: the two per-batch flushes are independent.  The extracted
destination's flush trace, written-line tally and the completion of the
run do not depend on the raw destination's open/write outcomes, and
symmetrically the raw destination's flush trace, tally and the completion
do not depend on the extracted destination's outcomes: a failure on one
side never prevents the other side's batch file from being written and
never aborts the run. -/
theorem claim_c7_flush_independence (queries : List String)
    (pages num_results batch_size : Nat) (delay : ℚ)
    (provider : String → Nat → SearchOutcome)
    (extractor : String → Option String) :
    (∀ (rawOpenOk1 rawOpenOk2 extOpenOk : Nat → Bool)
        (rawWriteOk1 rawWriteOk2 extWriteOk : Nat → Nat → Bool),
      ((run_process queries pages num_results batch_size delay provider
          extractor rawOpenOk1 extOpenOk rawWriteOk1 extWriteOk).state.ext_flushes =
        (run_process queries pages num_results batch_size delay provider
          extractor rawOpenOk2 extOpenOk rawWriteOk2 extWriteOk).state.ext_flushes) ∧
      ((run_process queries pages num_results batch_size delay provider
          extractor rawOpenOk1 extOpenOk rawWriteOk1 extWriteOk).state.lines_extracted =
        (run_process queries pages num_results batch_size delay provider
          extractor rawOpenOk2 extOpenOk rawWriteOk2 extWriteOk).state.lines_extracted) ∧
      ((run_process queries pages num_results batch_size delay provider
          extractor rawOpenOk1 extOpenOk rawWriteOk1 extWriteOk).isCompleted =
        (run_process queries pages num_results batch_size delay provider
          extractor rawOpenOk2 extOpenOk rawWriteOk2 extWriteOk).isCompleted)) ∧
    (∀ (extOpenOk1 extOpenOk2 rawOpenOk : Nat → Bool)
        (extWriteOk1 extWriteOk2 rawWriteOk : Nat → Nat → Bool),
      ((run_process queries pages num_results batch_size delay provider
          extractor rawOpenOk extOpenOk1 rawWriteOk extWriteOk1).state.raw_flushes =
        (run_process queries pages num_results batch_size delay provider
          extractor rawOpenOk extOpenOk2 rawWriteOk extWriteOk2).state.raw_flushes) ∧
      ((run_process queries pages num_results batch_size delay provider
          extractor rawOpenOk extOpenOk1 rawWriteOk extWriteOk1).state.lines_raw =
        (run_process queries pages num_results batch_size delay provider
          extractor rawOpenOk extOpenOk2 rawWriteOk extWriteOk2).state.lines_raw) ∧
      ((run_process queries pages num_results batch_size delay provider
          extractor rawOpenOk extOpenOk1 rawWriteOk extWriteOk1).isCompleted =
        (run_process queries pages num_results batch_size delay provider
          extractor rawOpenOk extOpenOk2 rawWriteOk extWriteOk2).isCompleted)) := by
  constructor
  · intro rawOpenOk1 rawOpenOk2 extOpenOk rawWriteOk1 rawWriteOk2 extWriteOk
    have h := run_batch_loop_raw_indep pages num_results delay provider extractor
      rawOpenOk1 rawOpenOk2 extOpenOk rawWriteOk1 rawWriteOk2 extWriteOk
      (batch_generator queries batch_size) 0 OrchestratorState.init
      OrchestratorState.init rfl rfl rfl
    exact ⟨h.2.2.1, h.2.1, h.2.2.2⟩
  · intro extOpenOk1 extOpenOk2 rawOpenOk extWriteOk1 extWriteOk2 rawWriteOk
    have h := run_batch_loop_ext_indep pages num_results delay provider extractor
      extOpenOk1 extOpenOk2 rawOpenOk extWriteOk1 extWriteOk2 rawWriteOk
      (batch_generator queries batch_size) 0 OrchestratorState.init
      OrchestratorState.init rfl rfl rfl
    exact ⟨h.2.2.1, h.2.1, h.2.2.2⟩

/-- Claim C4 (code bug witness): with two queries in singleton batches and
every search call failing with a network error, batch 1 collects zero
records; the batch-summary log of main.py line 290 then divides the saved
count by the record-list length 0 and the ZeroDivisionError escapes to the
top-level handler: the run is not completed and only 1 of the 2 queries is
processed — the second batch never runs, contradicting the claim that the
batch loop completes every remaining batch. -/
theorem claim_c4_zero_record_batch_aborts :
    batch_generator ["a", "b"] 1 = [["a"], ["b"]] ∧
    (run_process ["a", "b"] 1 10 1 0 witness_provider_net_all
      witness_extractor_none (fun _ => true) (fun _ => true)
      (fun _ _ => true) (fun _ _ => true)).isCompleted = false ∧
    (run_process ["a", "b"] 1 10 1 0 witness_provider_net_all
      witness_extractor_none (fun _ => true) (fun _ => true)
      (fun _ _ => true) (fun _ _ => true)).state.qstate.global_query_index = 1 :=
  ⟨by decide, by decide, by decide⟩

/-- Witness for claim C2 at a concrete input: one page, one item, parity of
the two record lists. -/
theorem claim_c2_witness :
    (process_single_query "q" 1 10 witness_provider_one_item
      witness_extractor_none).raw_results.length =
    (process_single_query "q" 1 10 witness_provider_one_item
      witness_extractor_none).extracted_results.length :=
  (claim_c2_raw_extracted_parity "q" 1 10 witness_provider_one_item
    witness_extractor_none).1

/-- Witness for claim C10 at a concrete input. -/
theorem claim_c10_witness :
    (process_single_query "q" 1 10 witness_provider_one_item
      witness_extractor_none).counters.extractions_success ≤
      (process_single_query "q" 1 10 witness_provider_one_item
        witness_extractor_none).counters.urls_processed ∧
    (process_single_query "q" 1 10 witness_provider_one_item
      witness_extractor_none).counters.urls_processed ≤
      (process_single_query "q" 1 10 witness_provider_one_item
        witness_extractor_none).counters.raw_saved ∧
    (process_single_query "q" 1 10 witness_provider_one_item
      witness_extractor_none).counters.raw_saved =
      (process_single_query "q" 1 10 witness_provider_one_item
        witness_extractor_none).raw_results.length :=
  claim_c10_counter_bounds "q" 1 10 witness_provider_one_item
    witness_extractor_none

/-- Witness for claim C8 at the example items of the spec. -/
theorem claim_c8_witness :
    normalize_items witness_items_c8 =
      (witness_items_c8.filter keep_item).map to_search_item :=
  claim_c8_normalization.1 witness_items_c8

/-- Witness for claim C7 at concrete oracles: the raw batch file fails to
open in one run and opens in the other, with identical extracted-side
oracles; the extracted flush trace, tally and completion agree. -/
theorem claim_c7_witness :
    ((run_process ["a"] 1 10 1 0 witness_provider_per_query
        witness_extractor_none (fun _ => false) (fun _ => true)
        (fun _ _ => true) (fun _ _ => true)).state.ext_flushes =
      (run_process ["a"] 1 10 1 0 witness_provider_per_query
        witness_extractor_none (fun _ => true) (fun _ => true)
        (fun _ _ => true) (fun _ _ => true)).state.ext_flushes) ∧
    ((run_process ["a"] 1 10 1 0 witness_provider_per_query
        witness_extractor_none (fun _ => false) (fun _ => true)
        (fun _ _ => true) (fun _ _ => true)).state.lines_extracted =
      (run_process ["a"] 1 10 1 0 witness_provider_per_query
        witness_extractor_none (fun _ => true) (fun _ => true)
        (fun _ _ => true) (fun _ _ => true)).state.lines_extracted) ∧
    ((run_process ["a"] 1 10 1 0 witness_provider_per_query
        witness_extractor_none (fun _ => false) (fun _ => true)
        (fun _ _ => true) (fun _ _ => true)).isCompleted =
      (run_process ["a"] 1 10 1 0 witness_provider_per_query
        witness_extractor_none (fun _ => true) (fun _ => true)
        (fun _ _ => true) (fun _ _ => true)).isCompleted) :=
  (claim_c7_flush_independence ["a"] 1 10 1 0 witness_provider_per_query
    witness_extractor_none).1 (fun _ => false) (fun _ => true) (fun _ => true)
    (fun _ _ => true) (fun _ _ => true) (fun _ _ => true)
